import Mathlib

/-!
# Verification of the micro-cap trading engine core

Shallow embedding of the order-proposal pipeline (`index.js`, `risk.js`),
the configuration defaults (`config.js`) and the retrying quote fetcher
(`market.js`). JavaScript numbers are modelled as rationals (`ℚ`);
`Math.floor` is `Int.floor`, `Math.min`/`Math.max` are `min`/`max`,
`Number(x).toFixed(4)` is rounding to four decimal places with ties
going to the larger value (the ECMAScript rule), which is Mathlib's
`round`.
-/

/-- Decision object as consumed by `proposeOrder` (`index.js`): a validated
high-level decision. Only `symbol` and `action` are read by the proposal
pipeline. -/
structure Decision where
  symbol : String
  action : String
  confidence : ℚ
deriving DecidableEq

/-- Market quote as consumed by `proposeOrder`: latest price and average
daily dollar volume (`advUsd`). -/
structure Quote where
  price : ℚ
  advUsd : ℚ
deriving DecidableEq

/-- The `Settings` class of `config.js`: all tunables, with the fields the
proposal pipeline and the market fetcher read. `apiRetries` and
`apiBackoffMs` are parsed with `parseInt`, hence naturals here. -/
structure Settings where
  maxPositionWeight : ℚ
  targetRiskBps : ℚ
  hardStopPct : ℚ
  trailingAtrMult : ℚ
  minAdvUsd : ℚ
  maxPctAdv : ℚ
  slippageBps : ℚ
  timeStopDays : ℚ
  minPrice : ℚ
  apiRetries : ℕ
  apiBackoffMs : ℕ
  simulateMarketData : Bool
  simulatedPrice : ℚ
  simulatedVolume : ℚ
deriving DecidableEq

/-- The default settings of `config.js` (no environment overrides). -/
def defaultSettings : Settings where
  maxPositionWeight := 1/10
  targetRiskBps := 15
  hardStopPct := 12/100
  trailingAtrMult := 3
  minAdvUsd := 100000
  maxPctAdv := 5/100
  slippageBps := 40
  timeStopDays := 5
  minPrice := 1/2
  apiRetries := 3
  apiBackoffMs := 500
  simulateMarketData := false
  simulatedPrice := 1
  simulatedVolume := 100000

/-- `maxSharesByLiquidity` from `risk.js`: shares capped by the fraction of
average daily dollar volume the strategy may consume. The JavaScript guard
`!advUsd || !price || advUsd <= 0 || price <= 0` (falsiness of a number is
being zero) is kept disjunct for disjunct. -/
def maxSharesByLiquidity (advUsd price maxPctAdv : ℚ) : ℤ :=
  if advUsd = 0 ∨ price = 0 ∨ advUsd ≤ 0 ∨ price ≤ 0 then 0
  else Int.floor (advUsd * maxPctAdv / price)

/-- `riskScaledShares` from `risk.js`: shares sized so the daily volatility
of the position stays within the target risk budget (in basis points). -/
def riskScaledShares (price dailyVol equity targetBps : ℚ) : ℤ :=
  let vol := if 0 < dailyVol then dailyVol else 1/100000000
  let riskBudget := equity * (targetBps / 10000)
  let shares := riskBudget / (price * vol)
  max 0 (Int.floor shares)

/-- `computeStop` from `risk.js`: the more conservative (higher) of the hard
stop and the ATR trailing stop. -/
def computeStop (entry atr hardStopPct trailingMult : ℚ) : ℚ :=
  max (entry * (1 - hardStopPct)) (entry - trailingMult * atr)

/-- `shouldExit` from `risk.js`: exit when the price breaches the stop level
or the holding period reaches the time stop. -/
def shouldExit (last stopLevel holdingDays timeStopDays : ℚ) : Bool :=
  if last ≤ stopLevel then true
  else if holdingDays ≥ timeStopDays then true
  else false

/-- An order as built by `proposeOrder` (`index.js`). -/
structure Order where
  symbol : String
  side : String
  qty : ℤ
  limit : ℚ
  stop : ℚ
deriving DecidableEq

/-- Result of `proposeOrder`: either `{ order }` or `{ error }`. -/
inductive ProposeResult where
  | order (o : Order)
  | error (msg : String)
deriving DecidableEq

/-- `Number(x.toFixed(4))`: round to four decimal places, ties to the
larger value. -/
def toFixed4 (x : ℚ) : ℚ :=
  (round (x * 10000) : ℤ) / 10000

/-- `proposeOrder` from `index.js`. The process-global `config` object is
threaded in as the `cfg` parameter; the hard-coded daily-volatility and ATR
approximations (2 % of price) are kept literally. -/
def proposeOrder (decision : Decision) (quote : Quote) (equity : ℚ)
    (cfg : Settings) : ProposeResult :=
  if quote.advUsd < cfg.minAdvUsd then .error "Insufficient liquidity"
  else
    let sharesRisk := riskScaledShares quote.price (2/100) equity cfg.targetRiskBps
    let sharesLiq := maxSharesByLiquidity quote.advUsd quote.price cfg.maxPctAdv
    let shares := min sharesRisk sharesLiq
    if shares ≤ 0 then .error "Zero shares after constraints"
    else
      let atr := quote.price * (2/100)
      let stopLevel := computeStop quote.price atr cfg.hardStopPct cfg.trailingAtrMult
      let limitPrice := quote.price * (1 + cfg.slippageBps / 10000)
      .order
        { symbol := decision.symbol
          side := decision.action
          qty := shares
          limit := toFixed4 limitPrice
          stop := toFixed4 stopLevel }

/-- The decision stub of `index.js`. -/
def decisionA : Decision := ⟨"ABC", "BUY", 3/4⟩

/-- Scenario A quote: price 10, advUsd 500000. -/
def quoteA : Quote := ⟨10, 500000⟩

/-- The order scenario A produces: 75 shares, limit 10.04, stop 9.4. -/
def orderA : Order := ⟨"ABC", "BUY", 75, 251/25, 47/5⟩

/-- Instrumented variant of `riskScaledShares`: the Boolean records that the
body evaluates `riskBudget / (price * vol)`, a division whose denominator
contains `price`, on every call. -/
def riskScaledSharesDiv (price dailyVol equity targetBps : ℚ) : ℤ × Bool :=
  let vol := if 0 < dailyVol then dailyVol else 1/100000000
  let riskBudget := equity * (targetBps / 10000)
  let shares := riskBudget / (price * vol)
  (max 0 (Int.floor shares), true)

/-- Instrumented variant of `maxSharesByLiquidity`: the Boolean records
whether the division `usdCap / price` was evaluated (the guard returns 0
without dividing). -/
def maxSharesByLiquidityDiv (advUsd price maxPctAdv : ℚ) : ℤ × Bool :=
  if advUsd = 0 ∨ price = 0 ∨ advUsd ≤ 0 ∨ price ≤ 0 then (0, false)
  else (Int.floor (advUsd * maxPctAdv / price), true)

/-- Instrumented variant of `proposeOrder`: same result, paired with a
Boolean that is true exactly when some division by `price` was evaluated
during the call. -/
def proposeOrderDiv (decision : Decision) (quote : Quote) (equity : ℚ)
    (cfg : Settings) : ProposeResult × Bool :=
  if quote.advUsd < cfg.minAdvUsd then (.error "Insufficient liquidity", false)
  else
    let riskR := riskScaledSharesDiv quote.price (2/100) equity cfg.targetRiskBps
    let liqR := maxSharesByLiquidityDiv quote.advUsd quote.price cfg.maxPctAdv
    let divided := riskR.2 || liqR.2
    let shares := min riskR.1 liqR.1
    if shares ≤ 0 then (.error "Zero shares after constraints", divided)
    else
      let atr := quote.price * (2/100)
      let stopLevel := computeStop quote.price atr cfg.hardStopPct cfg.trailingAtrMult
      let limitPrice := quote.price * (1 + cfg.slippageBps / 10000)
      (.order
        { symbol := decision.symbol
          side := decision.action
          qty := shares
          limit := toFixed4 limitPrice
          stop := toFixed4 stopLevel }, divided)

/-- The instrumented risk sizing computes the same share count. -/
theorem riskScaledSharesDiv_fst (price dailyVol equity targetBps : ℚ) :
    (riskScaledSharesDiv price dailyVol equity targetBps).1 =
      riskScaledShares price dailyVol equity targetBps := rfl

/-- The instrumented liquidity sizing computes the same share count. -/
theorem maxSharesByLiquidityDiv_fst (advUsd price maxPctAdv : ℚ) :
    (maxSharesByLiquidityDiv advUsd price maxPctAdv).1 =
      maxSharesByLiquidity advUsd price maxPctAdv := by
  unfold maxSharesByLiquidityDiv maxSharesByLiquidity
  split <;> rfl

/-- The instrumented pipeline computes the same result as `proposeOrder`. -/
theorem proposeOrderDiv_fst (decision : Decision) (quote : Quote) (equity : ℚ)
    (cfg : Settings) :
    (proposeOrderDiv decision quote equity cfg).1 = proposeOrder decision quote equity cfg := by
  unfold proposeOrderDiv proposeOrder
  split
  · rfl
  · dsimp only
    rw [riskScaledSharesDiv_fst, maxSharesByLiquidityDiv_fst]
    split <;> rfl

/-!
## The quote fetcher (`market.js`)

The network is abstracted as a sequence of per-attempt outcomes: what the
HTTPS GET for the symbol's URL produced at attempt `n`. A request either
fails at transport level (Node `error` events; the 5-second timeout destroys
the request and surfaces the same way) or produces a response with a status
code and a body. What `JSON.parse` plus the optional-chain extraction
`json?.quoteResponse?.result?.[0]` yields for that body is carried
alongside it as data (`ParseOutcome`), since the JSON grammar itself is not
modelled: `malformed` is a `JSON.parse` exception carrying its message,
`missingResult` is the thrown `No quote data returned`, and `ok p v` is a
result object whose `regularMarketPrice` / `regularMarketVolume` fields
coerce under `Number(...)` to `p` / `v` — `none` standing for a missing or
non-numeric field, i.e. a `NaN` coercion.
-/

/-- Result of `JSON.parse` + extraction on a response body. -/
inductive ParseOutcome where
  | malformed (msg : String)
  | missingResult
  | ok (price volume : Option ℚ)
deriving DecidableEq

/-- One network attempt's outcome. -/
inductive AttemptOutcome where
  | transportError (msg : String)
  | response (status : ℕ) (body : String) (parsed : ParseOutcome)
deriving DecidableEq

/-- A JavaScript number that may be `NaN` (what `Number(...)` yields on a
missing or non-numeric field). -/
inductive JNum where
  | nan
  | num (q : ℚ)
deriving DecidableEq

/-- JavaScript multiplication on possibly-`NaN` numbers. -/
def JNum.mul : JNum → JNum → JNum
  | .num a, .num b => .num (a * b)
  | _, _ => .nan

/-- `Number(field)` on an extracted field. -/
def jsNumber : Option ℚ → JNum
  | some q => .num q
  | none => .nan

/-- The quote object `fetchQuote` resolves with. -/
structure JQuote where
  price : JNum
  volume : JNum
  advUsd : JNum
deriving DecidableEq

/-- Terminal failure kinds of `fetchQuote`, mirroring the three `reject`
sites: network error, `HTTP <status> when fetching quote: <snippet>`, and
`Failed to parse quote response: <message>`. -/
inductive FetchFailure where
  | network (msg : String)
  | httpStatus (status : ℕ) (snippet : String)
  | parse (msg : String)
deriving DecidableEq

/-- Resolution of a `fetchQuote` call. -/
inductive FetchResult where
  | ok (q : JQuote)
  | fail (f : FetchFailure)
deriving DecidableEq

/-- `(data || '').toString().trim().slice(0, 120)`: the body snippet kept in
an HTTP-status failure message. -/
def bodySnippet (data : String) : String :=
  String.mk (data.trim.data.take 120)

/-- Classification of a single attempt, following the handler in
`fetchQuote`: a 2xx status leads to parsing, any other status is an
HTTP-status failure carrying the body snippet, and a transport error is a
network failure. -/
def attemptResult : AttemptOutcome → FetchResult
  | .transportError msg => .fail (.network msg)
  | .response status body parsed =>
    if 200 ≤ status ∧ status < 300 then
      match parsed with
      | .malformed msg => .fail (.parse ("Failed to parse quote response: " ++ msg))
      | .missingResult => .fail (.parse "Failed to parse quote response: No quote data returned")
      | .ok p v =>
        .ok ⟨jsNumber p, jsNumber v, (jsNumber p).mul (jsNumber v)⟩
    else .fail (.httpStatus status (bodySnippet body))

/-- Observable trace of one `fetchQuote` call: how many attempts were
issued, the backoff delays slept between them (in order, in milliseconds),
and the final resolution. -/
structure FetchTrace where
  attemptsMade : ℕ
  delays : List ℕ
  result : FetchResult
deriving DecidableEq

/-- The retry loop of `fetchQuote`. `retriesLeft` is
`cfg.apiRetries - attempt`, so `0 < retriesLeft` is the source's guard
`attempt < config.apiRetries`; on a retry the loop waits
`config.apiBackoffMs * 2 ^ attempt` and recurses with `attempt + 1`. -/
def runFetch (cfg : Settings) (outcomes : ℕ → AttemptOutcome) :
    ℕ → ℕ → FetchTrace
  | retriesLeft, attempt =>
    match attemptResult (outcomes attempt) with
    | .ok q => { attemptsMade := 1, delays := [], result := .ok q }
    | .fail f =>
      match retriesLeft with
      | 0 => { attemptsMade := 1, delays := [], result := .fail f }
      | r + 1 =>
        let rest := runFetch cfg outcomes r (attempt + 1)
        { attemptsMade := rest.attemptsMade + 1
          delays := cfg.apiBackoffMs * 2 ^ attempt :: rest.delays
          result := rest.result }

/-- `fetchQuote` from `market.js`, called with `attempt = 0`. In simulation
mode it resolves deterministic values from the settings with no network
attempt; otherwise it runs the retry loop. The symbol only parametrises the
request URL, which the outcome sequence abstracts. -/
def fetchQuote (cfg : Settings) (outcomes : ℕ → AttemptOutcome) : FetchTrace :=
  if cfg.simulateMarketData then
    { attemptsMade := 0
      delays := []
      result := .ok ⟨.num cfg.simulatedPrice, .num cfg.simulatedVolume,
        .num (cfg.simulatedPrice * cfg.simulatedVolume)⟩ }
  else
    runFetch cfg outcomes cfg.apiRetries 0

/-- Outcome sequence of Scenario C: every attempt is answered HTTP 429. -/
def outcomes429 : ℕ → AttemptOutcome :=
  fun _ => .response 429 "Edge: Too Many Requests" (.malformed "Unexpected token E")

/-- Outcome sequence with a 2xx response whose result object has no numeric
price or volume field. -/
def outcomesNoFields : ℕ → AttemptOutcome :=
  fun _ => .response 200 "quoteResponse with an empty result object" (.ok none none)

/-!
## Helper lemmas
-/

/-- With the hard-coded 2 % daily volatility, the clamp branch is not taken
and `riskScaledShares` is the floored risk-budget quotient, floored at 0. -/
theorem riskScaledShares_eq (price equity targetBps : ℚ) :
    riskScaledShares price (2/100) equity targetBps =
      max 0 (Int.floor (equity * (targetBps / 10000) / (price * (2/100)))) := by
  unfold riskScaledShares
  norm_num

/-- `riskScaledShares` never returns a negative count. -/
theorem riskScaledShares_nonneg (price dailyVol equity targetBps : ℚ) :
    0 ≤ riskScaledShares price dailyVol equity targetBps :=
  le_max_left _ _

/-- A positive liquidity cap means the guard was not taken, so the cap is
the floored quotient. -/
theorem maxSharesByLiquidity_pos_eq (advUsd price maxPctAdv : ℚ)
    (h : 0 < maxSharesByLiquidity advUsd price maxPctAdv) :
    maxSharesByLiquidity advUsd price maxPctAdv =
      Int.floor (advUsd * maxPctAdv / price) := by
  unfold maxSharesByLiquidity at h ⊢
  split_ifs at h ⊢ with hc
  · exact absurd h (by omega)
  · rfl

/-- A positive risk-scaled count means the floor-at-zero was not binding. -/
theorem riskScaledShares_pos_eq (price equity targetBps : ℚ)
    (h : 0 < riskScaledShares price (2/100) equity targetBps) :
    riskScaledShares price (2/100) equity targetBps =
      Int.floor (equity * (targetBps / 10000) / (price * (2/100))) := by
  rw [riskScaledShares_eq] at h ⊢
  rcases le_or_lt (Int.floor (equity * (targetBps / 10000) / (price * (2/100)))) 0 with h0 | h0
  · rw [max_eq_left h0] at h
    exact absurd h (by omega)
  · exact max_eq_right h0.le

/-!
## Claim theorems: the order proposer
-/

/-- Claim C1: whenever `proposeOrder` returns an order rather than a
rejection, its quantity is a non-negative integer, at most
`floor((advUsd * maxPctAdv) / price)` and at most
`floor((equity * targetRiskBps/10000) / (price * dailyVol))` with the fixed
`dailyVol = 0.02` approximation. -/
theorem proposeOrder_qty_bounds (decision : Decision) (quote : Quote) (equity : ℚ)
    (cfg : Settings) (o : Order)
    (h : proposeOrder decision quote equity cfg = .order o) :
    0 ≤ o.qty ∧
    o.qty ≤ Int.floor (quote.advUsd * cfg.maxPctAdv / quote.price) ∧
    o.qty ≤ Int.floor (equity * (cfg.targetRiskBps / 10000) / (quote.price * (2/100))) := by
  unfold proposeOrder at h
  split at h
  · exact absurd h (by simp)
  · dsimp only at h
    split at h
    · exact absurd h (by simp)
    · rename_i hpos
      rw [not_le] at hpos
      injection h with h
      subst h
      dsimp only at hpos ⊢
      have hliq : 0 <
          maxSharesByLiquidity quote.advUsd quote.price cfg.maxPctAdv :=
        lt_of_lt_of_le hpos (min_le_right _ _)
      have hrisk : 0 <
          riskScaledShares quote.price (2/100) equity cfg.targetRiskBps :=
        lt_of_lt_of_le hpos (min_le_left _ _)
      refine ⟨hpos.le, ?_, ?_⟩
      · calc min (riskScaledShares quote.price (2/100) equity cfg.targetRiskBps)
              (maxSharesByLiquidity quote.advUsd quote.price cfg.maxPctAdv) ≤
            maxSharesByLiquidity quote.advUsd quote.price cfg.maxPctAdv := min_le_right _ _
          _ = Int.floor (quote.advUsd * cfg.maxPctAdv / quote.price) :=
            maxSharesByLiquidity_pos_eq _ _ _ hliq
      · calc min (riskScaledShares quote.price (2/100) equity cfg.targetRiskBps)
              (maxSharesByLiquidity quote.advUsd quote.price cfg.maxPctAdv) ≤
            riskScaledShares quote.price (2/100) equity cfg.targetRiskBps := min_le_left _ _
          _ = Int.floor (equity * (cfg.targetRiskBps / 10000) / (quote.price * (2/100))) :=
            riskScaledShares_pos_eq _ _ _ hrisk

/-- Witness for C1 at Scenario A: the returned 75-share order satisfies both
caps. -/
theorem proposeOrder_qty_bounds_witness :
    0 ≤ orderA.qty ∧
    orderA.qty ≤ Int.floor (quoteA.advUsd * defaultSettings.maxPctAdv / quoteA.price) ∧
    orderA.qty ≤ Int.floor (10000 * (defaultSettings.targetRiskBps / 10000) /
      (quoteA.price * (2/100))) :=
  proposeOrder_qty_bounds decisionA quoteA 10000 defaultSettings orderA (by
    norm_num [proposeOrder, riskScaledShares, maxSharesByLiquidity, computeStop, toFixed4,
      decisionA, quoteA, orderA, defaultSettings, round_eq])

/-- Claim C2 as stated is false: an input whose constrained share count is
not positive but which already fails the liquidity gate is rejected with
"Insufficient liquidity", not "Zero shares after constraints" (price
1000000, advUsd 50000, equity 10000, default settings). -/
theorem proposeOrder_zero_shares_counterexample :
    min (riskScaledShares 1000000 (2/100) 10000 defaultSettings.targetRiskBps)
        (maxSharesByLiquidity 50000 1000000 defaultSettings.maxPctAdv) ≤ 0 ∧
    proposeOrder decisionA ⟨1000000, 50000⟩ 10000 defaultSettings ≠
      .error "Zero shares after constraints" ∧
    proposeOrder decisionA ⟨1000000, 50000⟩ 10000 defaultSettings =
      .error "Insufficient liquidity" := by
  refine ⟨?_, ?_, ?_⟩
  · norm_num [riskScaledShares, maxSharesByLiquidity, defaultSettings]
  · have h : proposeOrder decisionA ⟨1000000, 50000⟩ 10000 defaultSettings =
        .error "Insufficient liquidity" := by
      norm_num [proposeOrder, defaultSettings]
    rw [h]
    intro hcontra
    injection hcontra with hmsg
    exact absurd hmsg (by decide)
  · norm_num [proposeOrder, defaultSettings]

/-- Claim C2 amended: on every input that passes the liquidity gate and
whose constrained share count is ≤ 0, `proposeOrder` returns the rejection
"Zero shares after constraints"; and every order it does return has
quantity ≥ 1. -/
theorem proposeOrder_never_zero_qty (decision : Decision) (quote : Quote) (equity : ℚ)
    (cfg : Settings) :
    (¬ quote.advUsd < cfg.minAdvUsd →
      min (riskScaledShares quote.price (2/100) equity cfg.targetRiskBps)
          (maxSharesByLiquidity quote.advUsd quote.price cfg.maxPctAdv) ≤ 0 →
      proposeOrder decision quote equity cfg = .error "Zero shares after constraints") ∧
    (∀ o : Order, proposeOrder decision quote equity cfg = .order o → 1 ≤ o.qty) := by
  constructor
  · intro hGate hMin
    unfold proposeOrder
    rw [if_neg hGate]
    dsimp only
    rw [if_pos hMin]
  · intro o h
    unfold proposeOrder at h
    split at h
    · exact absurd h (by simp)
    · dsimp only at h
      split at h
      · exact absurd h (by simp)
      · rename_i hpos
        injection h with h
        subst h
        dsimp only
        omega

/-- Witness for amended C2: equity 0 passes the gate, yields a non-positive
share count and the "Zero shares after constraints" rejection. -/
theorem proposeOrder_never_zero_qty_witness :
    proposeOrder decisionA ⟨10, 200000⟩ 0 defaultSettings =
      .error "Zero shares after constraints" :=
  (proposeOrder_never_zero_qty decisionA ⟨10, 200000⟩ 0 defaultSettings).1
    (by norm_num [defaultSettings])
    (by norm_num [riskScaledShares, maxSharesByLiquidity, defaultSettings])

/-- Claim C4 as stated is false: at price -1, advUsd 200000 (passing the
liquidity gate), `proposeOrder` does reject, but only after
`riskScaledShares` has evaluated its division by `price`: the instrumented
pipeline records the division, so there is no short-circuit before it. -/
theorem proposeOrder_price_div_counterexample :
    (-1 : ℚ) ≤ 0 ∧
    (proposeOrderDiv decisionA ⟨-1, 200000⟩ 10000 defaultSettings).2 = true ∧
    (proposeOrderDiv decisionA ⟨-1, 200000⟩ 10000 defaultSettings).1 =
      .error "Zero shares after constraints" := by
  refine ⟨by norm_num, ?_, ?_⟩ <;>
    norm_num [proposeOrderDiv, riskScaledSharesDiv, maxSharesByLiquidityDiv, defaultSettings]

/-- Claim C4 amended: a quote with price ≤ 0 always ends in a rejection,
never an order, but the rejection does not come before every division by
price: whenever the liquidity gate passes, the pipeline evaluates the
division inside `riskScaledShares` on the way to the zero-shares
rejection. -/
theorem proposeOrder_price_nonpos (decision : Decision) (quote : Quote) (equity : ℚ)
    (cfg : Settings) (h : quote.price ≤ 0) :
    (proposeOrder decision quote equity cfg = .error "Insufficient liquidity" ∨
     proposeOrder decision quote equity cfg = .error "Zero shares after constraints") ∧
    (¬ quote.advUsd < cfg.minAdvUsd →
      (proposeOrderDiv decision quote equity cfg).2 = true) := by
  constructor
  · by_cases hL : quote.advUsd < cfg.minAdvUsd
    · left
      unfold proposeOrder
      rw [if_pos hL]
    · right
      have hliq : maxSharesByLiquidity quote.advUsd quote.price cfg.maxPctAdv = 0 := by
        unfold maxSharesByLiquidity
        rw [if_pos (Or.inr (Or.inr (Or.inr h)))]
      unfold proposeOrder
      rw [if_neg hL]
      dsimp only
      rw [hliq]
      rw [if_pos (min_le_right _ _)]
  · intro hL
    unfold proposeOrderDiv
    rw [if_neg hL]
    dsimp only
    split <;> simp [riskScaledSharesDiv]

/-- Witness for amended C4 at price -2, advUsd 150000: a rejection is
returned and the division by price was evaluated. -/
theorem proposeOrder_price_nonpos_witness :
    (proposeOrder decisionA ⟨-2, 150000⟩ 10000 defaultSettings =
        .error "Insufficient liquidity" ∨
     proposeOrder decisionA ⟨-2, 150000⟩ 10000 defaultSettings =
        .error "Zero shares after constraints") ∧
    (proposeOrderDiv decisionA ⟨-2, 150000⟩ 10000 defaultSettings).2 = true := by
  have h := proposeOrder_price_nonpos decisionA ⟨-2, 150000⟩ 10000 defaultSettings
    (by norm_num)
  exact ⟨h.1, h.2 (by norm_num [defaultSettings])⟩

/-- Claim C5, Scenario A: with price 10, advUsd 500000, equity 10000 and
the default settings (targetRiskBps 15, maxPctAdv 0.05, minAdvUsd 100000),
`riskScaledShares` is 75, `maxSharesByLiquidity` is 2500, and the order has
quantity min(75, 2500) = 75. -/
theorem proposeOrder_scenarioA :
    riskScaledShares quoteA.price (2/100) 10000 defaultSettings.targetRiskBps = 75 ∧
    maxSharesByLiquidity quoteA.advUsd quoteA.price defaultSettings.maxPctAdv = 2500 ∧
    proposeOrder decisionA quoteA 10000 defaultSettings = .order orderA ∧
    orderA.qty = min 75 2500 := by
  refine ⟨?_, ?_, ?_, by norm_num [orderA]⟩
  · norm_num [riskScaledShares, defaultSettings, quoteA]
  · norm_num [maxSharesByLiquidity, defaultSettings, quoteA]
  · norm_num [proposeOrder, riskScaledShares, maxSharesByLiquidity, computeStop, toFixed4,
      decisionA, quoteA, orderA, defaultSettings, round_eq]

/-- Claim C6: `computeStop` is exactly the maximum of the hard stop
`entry * (1 - hardStopPct)` and the trailing stop
`entry - trailingMult * atr`, hence at least each of them. -/
theorem computeStop_is_max (entry atr hardStopPct trailingMult : ℚ) :
    computeStop entry atr hardStopPct trailingMult =
      max (entry * (1 - hardStopPct)) (entry - trailingMult * atr) ∧
    entry * (1 - hardStopPct) ≤ computeStop entry atr hardStopPct trailingMult ∧
    entry - trailingMult * atr ≤ computeStop entry atr hardStopPct trailingMult :=
  ⟨rfl, le_max_left _ _, le_max_right _ _⟩

/-- Claim C7: with the gate passed, a positive price, a non-negative risk
budget rate and equity ≤ 0, `proposeOrder` returns the "Zero shares after
constraints" rejection. -/
theorem proposeOrder_nonpos_equity (decision : Decision) (quote : Quote) (equity : ℚ)
    (cfg : Settings) (hGate : ¬ quote.advUsd < cfg.minAdvUsd) (hp : 0 < quote.price)
    (he : equity ≤ 0) (hb : 0 ≤ cfg.targetRiskBps) :
    proposeOrder decision quote equity cfg = .error "Zero shares after constraints" := by
  have hrisk : riskScaledShares quote.price (2/100) equity cfg.targetRiskBps ≤ 0 := by
    rw [riskScaledShares_eq]
    have hnum : equity * (cfg.targetRiskBps / 10000) ≤ 0 :=
      mul_nonpos_iff.mpr (Or.inr ⟨he, by positivity⟩)
    have hden : (0:ℚ) < quote.price * (2/100) := by positivity
    have hsh : equity * (cfg.targetRiskBps / 10000) / (quote.price * (2/100)) ≤ 0 :=
      div_nonpos_of_nonpos_of_nonneg hnum hden.le
    have hfl : Int.floor (equity * (cfg.targetRiskBps / 10000) / (quote.price * (2/100))) ≤ 0 :=
      Int.floor_nonpos hsh
    omega
  have hmin : min (riskScaledShares quote.price (2/100) equity cfg.targetRiskBps)
      (maxSharesByLiquidity quote.advUsd quote.price cfg.maxPctAdv) ≤ 0 :=
    le_trans (min_le_left _ _) hrisk
  unfold proposeOrder
  rw [if_neg hGate]
  dsimp only
  rw [if_pos hmin]

/-- Witness for C7: equity -500 with a liquid quote at price 20 yields the
zero-shares rejection. -/
theorem proposeOrder_nonpos_equity_witness :
    proposeOrder decisionA ⟨20, 300000⟩ (-500) defaultSettings =
      .error "Zero shares after constraints" :=
  proposeOrder_nonpos_equity decisionA ⟨20, 300000⟩ (-500) defaultSettings
    (by norm_num [defaultSettings]) (by norm_num) (by norm_num)
    (by norm_num [defaultSettings])

/-- Claim C8: `shouldExit` is total and returns true exactly when the last
price is at or below the stop level or the holding period has reached the
time stop; at `last = stopLevel` it returns true (boundary inclusive). -/
theorem shouldExit_spec :
    (∀ last stopLevel holdingDays timeStopDays : ℚ,
      shouldExit last stopLevel holdingDays timeStopDays = true ↔
        (last ≤ stopLevel ∨ timeStopDays ≤ holdingDays)) ∧
    (∀ stopLevel holdingDays timeStopDays : ℚ,
      shouldExit stopLevel stopLevel holdingDays timeStopDays = true) := by
  constructor
  · intro last stopLevel holdingDays timeStopDays
    unfold shouldExit
    split_ifs with h1 h2
    · simp [h1]
    · simp [h1, h2, ge_iff_le]
    · simp [h1, h2, ge_iff_le]
  · intro stopLevel holdingDays timeStopDays
    unfold shouldExit
    rw [if_pos le_rfl]

/-- Claim C10: the result of `proposeOrder` does not depend on
`maxPositionWeight`, `minPrice` or the decision's `confidence`: changing
only these inputs leaves the result unchanged. -/
theorem proposeOrder_unused_inputs (decision : Decision) (quote : Quote) (equity : ℚ)
    (cfg : Settings) (w p c : ℚ) :
    proposeOrder { decision with confidence := c } quote equity
        { cfg with maxPositionWeight := w, minPrice := p } =
      proposeOrder decision quote equity cfg := rfl

/-!
## Claim theorems: the quote fetcher
-/

/-- A successful attempt resolves immediately: one attempt, no delays. -/
theorem runFetch_ok (cfg : Settings) (outcomes : ℕ → AttemptOutcome) (r a : ℕ)
    (q : JQuote) (h : attemptResult (outcomes a) = .ok q) :
    runFetch cfg outcomes r a = ⟨1, [], .ok q⟩ := by
  cases r <;> rw [runFetch, h]

/-- A failing attempt with no retries left rejects immediately. -/
theorem runFetch_fail_last (cfg : Settings) (outcomes : ℕ → AttemptOutcome) (a : ℕ)
    (f : FetchFailure) (h : attemptResult (outcomes a) = .fail f) :
    runFetch cfg outcomes 0 a = ⟨1, [], .fail f⟩ := by
  rw [runFetch, h]

/-- A failing attempt with retries left backs off `apiBackoffMs * 2 ^ attempt`
and recurses with `attempt + 1`. -/
theorem runFetch_fail_retry (cfg : Settings) (outcomes : ℕ → AttemptOutcome) (r a : ℕ)
    (f : FetchFailure) (h : attemptResult (outcomes a) = .fail f) :
    runFetch cfg outcomes (r + 1) a =
      ⟨(runFetch cfg outcomes r (a + 1)).attemptsMade + 1,
       cfg.apiBackoffMs * 2 ^ a :: (runFetch cfg outcomes r (a + 1)).delays,
       (runFetch cfg outcomes r (a + 1)).result⟩ := by
  rw [runFetch, h]

/-- The retry loop issues at most `retriesLeft + 1` attempts. -/
theorem runFetch_attempts_le (cfg : Settings) (outcomes : ℕ → AttemptOutcome) :
    ∀ r a, (runFetch cfg outcomes r a).attemptsMade ≤ r + 1 := by
  intro r
  induction r with
  | zero =>
    intro a
    cases h : attemptResult (outcomes a) with
    | ok q => rw [runFetch_ok cfg outcomes 0 a q h]
    | fail f => rw [runFetch_fail_last cfg outcomes a f h]
  | succ r ih =>
    intro a
    cases h : attemptResult (outcomes a) with
    | ok q =>
      rw [runFetch_ok cfg outcomes (r + 1) a q h]
      exact Nat.le_add_left 1 (r + 1)
    | fail f =>
      rw [runFetch_fail_retry cfg outcomes r a f h]
      have := ih (a + 1)
      simpa using Nat.add_le_add_right this 1

/-- The delays slept by the retry loop started at attempt `a` are an initial
segment of the doubling sequence `apiBackoffMs * 2 ^ (a + j)`. -/
theorem runFetch_delays_eq (cfg : Settings) (outcomes : ℕ → AttemptOutcome) :
    ∀ r a, ∃ k, (runFetch cfg outcomes r a).delays =
      (List.range k).map (fun j => cfg.apiBackoffMs * 2 ^ (a + j)) := by
  intro r
  induction r with
  | zero =>
    intro a
    refine ⟨0, ?_⟩
    cases h : attemptResult (outcomes a) with
    | ok q => rw [runFetch_ok cfg outcomes 0 a q h]; rfl
    | fail f => rw [runFetch_fail_last cfg outcomes a f h]; rfl
  | succ r ih =>
    intro a
    cases h : attemptResult (outcomes a) with
    | ok q =>
      refine ⟨0, ?_⟩
      rw [runFetch_ok cfg outcomes (r + 1) a q h]
      rfl
    | fail f =>
      obtain ⟨k, hk⟩ := ih (a + 1)
      refine ⟨k + 1, ?_⟩
      rw [runFetch_fail_retry cfg outcomes r a f h]
      dsimp only
      rw [hk, List.range_succ_eq_map, List.map_cons, List.map_map]
      refine congrArg₂ List.cons (by rw [Nat.add_zero]) ?_
      refine List.map_congr_left ?_
      intro j hj
      simp only [Function.comp_apply, Nat.succ_eq_add_one]
      ring_nf

/-- In network mode, `fetchQuote` is the retry loop started with the full
retry budget at attempt 0. -/
theorem fetchQuote_network (cfg : Settings) (outcomes : ℕ → AttemptOutcome)
    (hsim : cfg.simulateMarketData = false) :
    fetchQuote cfg outcomes = runFetch cfg outcomes cfg.apiRetries 0 := by
  unfold fetchQuote
  rw [if_neg (by simp [hsim])]

/-- Claim C3: for every sequence of attempt outcomes, `fetchQuote` issues at
most `apiRetries + 1` attempts and its backoff delays are exactly
`apiBackoffMs * 2 ^ attempt` for attempts 0, 1, 2, ..., so consecutive
delays double; and in Scenario C (`apiRetries = 3`, every response HTTP
429) it makes exactly 4 attempts with delays B, 2B, 4B and rejects with an
HTTP-status failure carrying a body snippet of at most 120 characters. -/
theorem fetchQuote_retry_policy (cfg : Settings) (outcomes : ℕ → AttemptOutcome)
    (hsim : cfg.simulateMarketData = false) :
    (fetchQuote cfg outcomes).attemptsMade ≤ cfg.apiRetries + 1 ∧
    (∃ k, (fetchQuote cfg outcomes).delays =
      (List.range k).map (fun j => cfg.apiBackoffMs * 2 ^ j)) ∧
    (cfg.apiRetries = 3 →
      ∀ (body : String) (parsed : ParseOutcome),
        (∀ n, outcomes n = .response 429 body parsed) →
        (fetchQuote cfg outcomes).attemptsMade = 4 ∧
        (fetchQuote cfg outcomes).delays =
          [cfg.apiBackoffMs, 2 * cfg.apiBackoffMs, 4 * cfg.apiBackoffMs] ∧
        (fetchQuote cfg outcomes).result =
          .fail (.httpStatus 429 (bodySnippet body)) ∧
        (bodySnippet body).length ≤ 120) := by
  rw [fetchQuote_network cfg outcomes hsim]
  refine ⟨runFetch_attempts_le cfg outcomes cfg.apiRetries 0, ?_, ?_⟩
  · obtain ⟨k, hk⟩ := runFetch_delays_eq cfg outcomes cfg.apiRetries 0
    exact ⟨k, by simpa using hk⟩
  · intro hR body parsed hout
    have hfail : ∀ n, attemptResult (outcomes n) =
        .fail (.httpStatus 429 (bodySnippet body)) := by
      intro n
      rw [hout n]
      simp only [attemptResult]
      rw [if_neg (by omega)]
    rw [hR]
    rw [runFetch_fail_retry cfg outcomes 2 0 _ (hfail 0),
      runFetch_fail_retry cfg outcomes 1 1 _ (hfail 1),
      runFetch_fail_retry cfg outcomes 0 2 _ (hfail 2),
      runFetch_fail_last cfg outcomes 3 _ (hfail 3)]
    refine ⟨rfl, ?_, rfl, ?_⟩
    · norm_num [mul_comm]
    · have hlen : (bodySnippet body).length = (body.trim.data.take 120).length := rfl
      rw [hlen, List.length_take]
      omega

/-- Witness for C3: Scenario C with the default settings (apiRetries 3,
apiBackoffMs 500) and a constant 429 outcome sequence: 4 attempts, delays
500, 1000, 2000 ms, terminal HTTP-status failure. -/
theorem fetchQuote_retry_policy_witness :
    (fetchQuote defaultSettings outcomes429).attemptsMade = 4 ∧
    (fetchQuote defaultSettings outcomes429).delays = [500, 1000, 2000] ∧
    (fetchQuote defaultSettings outcomes429).result =
      .fail (.httpStatus 429 (bodySnippet "Edge: Too Many Requests")) ∧
    (bodySnippet "Edge: Too Many Requests").length ≤ 120 := by
  have h := (fetchQuote_retry_policy defaultSettings outcomes429 rfl).2.2 rfl
    "Edge: Too Many Requests" (.malformed "Unexpected token E") (fun n => rfl)
  simpa [defaultSettings] using h

/-- Claim C9: a 2xx first response whose body yields a result object makes
`fetchQuote` resolve on the first attempt with `Number(...)`-coerced
price/volume fields, with no numeric validation: missing or non-numeric
fields (`none`, i.e. a NaN coercion) still resolve successfully rather
than producing a parse failure or a retry. -/
theorem fetchQuote_success_no_validation (cfg : Settings)
    (outcomes : ℕ → AttemptOutcome) (status : ℕ) (body : String) (p v : Option ℚ)
    (hsim : cfg.simulateMarketData = false)
    (hs : 200 ≤ status ∧ status < 300)
    (h0 : outcomes 0 = .response status body (.ok p v)) :
    (fetchQuote cfg outcomes).attemptsMade = 1 ∧
    (fetchQuote cfg outcomes).delays = [] ∧
    (fetchQuote cfg outcomes).result =
      .ok ⟨jsNumber p, jsNumber v, (jsNumber p).mul (jsNumber v)⟩ := by
  have hr : attemptResult (outcomes 0) =
      .ok ⟨jsNumber p, jsNumber v, (jsNumber p).mul (jsNumber v)⟩ := by
    rw [h0]
    simp only [attemptResult]
    rw [if_pos hs]
  rw [fetchQuote_network cfg outcomes hsim,
    runFetch_ok cfg outcomes cfg.apiRetries 0 _ hr]
  exact ⟨rfl, rfl, rfl⟩

/-- Witness for C9: a 200 response whose result object has neither a
numeric price nor a numeric volume still resolves successfully, with all
quote fields NaN. -/
theorem fetchQuote_success_no_validation_witness :
    (fetchQuote defaultSettings outcomesNoFields).attemptsMade = 1 ∧
    (fetchQuote defaultSettings outcomesNoFields).delays = [] ∧
    (fetchQuote defaultSettings outcomesNoFields).result =
      .ok ⟨.nan, .nan, .nan⟩ :=
  fetchQuote_success_no_validation defaultSettings outcomesNoFields 200
    "quoteResponse with an empty result object" none none rfl (by omega) rfl
